import Mathlib

/-!
Verification of the route-assembly and maneuver-override-resolution pipeline
of `include/engine/api/route_api.hpp` (class `RouteAPI`).

The C++ code is shallowly embedded: coordinates are the fixed-point integer
pairs of `util::Coordinate`, node/segment identifiers are naturals, per-segment
metric values (doubles in the source) are abstracted as exact integers since
the verified properties concern key presence, ordering and structural equality
rather than floating-point rounding; the speed computation is kept as a
function parameter for the same reason.  External guidance transform stages
are parameters (the source uses them as opaque collaborators), while all the
control flow of `RouteAPI::MakeResponse` / `RouteAPI::MakeRoute` is translated
directly.
-/

namespace RouteApi

/-- Embeds `util::Coordinate`: fixed-point integer longitude/latitude; equality on
coordinates in the source is exact integer equality. -/
structure Coordinate where
  lon : Int
  lat : Int
deriving DecidableEq, Repr

/-- The type `extractor::guidance::TurnType` is embedded as a natural number
(`Invalid = 0` in the source enum). -/
abbrev TurnType := Nat

/-- The type `extractor::guidance::DirectionModifier` embedded as a natural number;
`MaxDirectionModifier` is the sentinel meaning "direction not overridden". -/
abbrev DirectionModifier := Nat

/-- Embeds `DirectionModifier::MaxDirectionModifier`: the out-of-band sentinel value
of the direction modifier enum (8 in the source). -/
def MaxDirectionModifier : DirectionModifier := 8

/-- A turn instruction: `{type, direction_modifier}`. -/
structure TurnInstruction where
  type : TurnType
  direction_modifier : DirectionModifier
deriving DecidableEq, Repr

/-- The maneuver of a `RouteStep`; besides the instruction it carries other
fields (bearings, location) which the override resolver must not touch. -/
structure StepManeuver where
  instruction : TurnInstruction
  bearing_before : Nat
  bearing_after : Nat
  location : Coordinate
deriving DecidableEq, Repr

/-- Embeds `guidance::RouteStep`: originating edge-based node `from_id`, a half-open
geometry range `[geometry_begin, geometry_end)` into the leg's locations, the
maneuver, and further payload fields the resolver must leave unchanged. -/
structure RouteStep where
  from_id : Nat
  geometry_begin : Nat
  geometry_end : Nat
  maneuver : StepManeuver
  distance : Int
  duration : Int
  name : String
deriving DecidableEq, Repr

/-- One per-segment annotation of `guidance::LegGeometry::Annotation`. -/
structure AnnotationEntry where
  distance : Int
  duration : Int
  weight : Int
  datasource : Nat
deriving DecidableEq, Repr

/-- Embeds `guidance::LegGeometry`: coordinate locations, parallel per-segment
annotations, and per-location OSM node ids. -/
structure LegGeometry where
  locations : List Coordinate
  annotations : List AnnotationEntry
  osm_node_ids : List Nat
deriving DecidableEq, Repr

/-- Embeds `extractor::ManeuverOverride` as used by the resolver. -/
structure ManeuverOverride where
  from_node : Nat
  via_node_id : Nat
  to_node : Nat
  override_type : TurnType
  direction : DirectionModifier
deriving DecidableEq, Repr

/-- The slice of the facade contract the resolver consumes:
`GetOverridesThatStartAt` and `GetCoordinateOfNode`. -/
structure Facade where
  GetOverridesThatStartAt : Nat → List ManeuverOverride
  GetCoordinateOfNode : Nat → Coordinate

/-- The geometry slice of a step: `locations[geometry_begin .. geometry_end)`,
the iterator range the via-node search scans. -/
def stepSlice (geom : LegGeometry) (s : RouteStep) : List Coordinate :=
  (geom.locations.drop s.geometry_begin).take (s.geometry_end - s.geometry_begin)

/-- Embeds `MAX_MANEUVER_DISTANCE = std::min(5l, std::distance(current_step_it, leg.steps.end()))`. -/
def maxManeuverDistance (steps : List RouteStep) (i : Nat) : Nat :=
  min 5 (steps.length - i)

/-- The primary lookahead search: `std::find_if(current_step_it, max_steps_fwd, …)`
testing `step.from_id == maneuver_relation.to_node`; `true` iff the match is
found strictly inside the window (the find did not return `max_steps_fwd`). -/
def toMatchFound (steps : List RouteStep) (i : Nat) (o : ManeuverOverride) : Bool :=
  ((steps.drop i).take (maxManeuverDistance steps i)).any fun s => s.from_id == o.to_node

/-- The single-step mutation performed when an override is applied: the
instruction type is overwritten unconditionally, the direction modifier only
when the override's direction is not the sentinel. -/
def mutateStep (o : ManeuverOverride) (s : RouteStep) : RouteStep :=
  { s with
    maneuver :=
      { s.maneuver with
        instruction :=
          { type := o.override_type
            direction_modifier :=
              if o.direction ≠ MaxDirectionModifier then o.direction
              else s.maneuver.instruction.direction_modifier } } }

/-- Embeds `++current_step_copy; if (current_step_copy < leg.steps.end()) { … }`:
mutate the step at index `k` when it exists, otherwise leave the leg alone. -/
def applyAt (steps : List RouteStep) (k : Nat) (o : ManeuverOverride) : List RouteStep :=
  match steps.get? k with
  | some s => steps.set k (mutateStep o s)
  | none => steps

/-- The inner via-node search loop
(`for (; current_step_copy != max_steps_fwd; ++current_step_copy)`): scan at
most `fuel` steps starting at index `t`; on the first step whose geometry slice
contains the via-node coordinate, apply the override to the following step and
report success (`done = true`), else report `none` (`done` stays false). -/
def viaLoop (fac : Facade) (geom : LegGeometry) (o : ManeuverOverride)
    (steps : List RouteStep) : Nat → Nat → Option (List RouteStep)
  | 0, _ => none
  | fuel + 1, t =>
    match steps.get? t with
    | none => none
    | some st =>
      if fac.GetCoordinateOfNode o.via_node_id ∈ stepSlice geom st then
        some (applyAt steps (t + 1) o)
      else
        viaLoop fac geom o steps fuel (t + 1)

/-- Processing of one `maneuver_relation` at outer index `i`: the lookahead
gate (primary window match, else the end-of-route fallback requiring a clipped
window and a matching target-anchor segment id), then the via-node search.
`some steps'` means the resolver is `done` for the leg (even if the mutation
was skipped past the leg end); `none` means `continue` to the next override. -/
def tryOverride (fac : Facade) (geom : LegGeometry) (targetId : Nat)
    (steps : List RouteStep) (i : Nat) (o : ManeuverOverride) :
    Option (List RouteStep) :=
  if toMatchFound steps i o
      || (decide (maxManeuverDistance steps i < 5) && (targetId == o.to_node)) then
    viaLoop fac geom o steps (maxManeuverDistance steps i) i
  else
    none

/-- The overrides fetched for the step at index `i`
(`facade.GetOverridesThatStartAt(current_step_it->from_id)`). -/
def stepOverrides (fac : Facade) (steps : List RouteStep) (i : Nat) :
    List ManeuverOverride :=
  match steps.get? i with
  | some s => fac.GetOverridesThatStartAt s.from_id
  | none => []

/-- One outer-loop position: try each override for step `i` in facade order,
returning the first successful application (`done`). -/
def tryStep (fac : Facade) (geom : LegGeometry) (targetId : Nat)
    (steps : List RouteStep) (i : Nat) : Option (List RouteStep) :=
  (stepOverrides fac steps i).findSome? (tryOverride fac geom targetId steps i)

/-- The outer resolver loop over step indices `i, i+1, …` with `fuel`
remaining iterations; the first `done` application ends the whole leg. -/
def resolveOuter (fac : Facade) (geom : LegGeometry) (targetId : Nat)
    (steps : List RouteStep) : Nat → Nat → List RouteStep
  | 0, _ => steps
  | fuel + 1, i =>
    match tryStep fac geom targetId steps i with
    | some s => s
    | none => resolveOuter fac geom targetId steps fuel (i + 1)

/-- The maneuver override resolver of `RouteAPI::MakeRoute` (the
`// apply manual override relations` block), for one leg: `targetId` is the
active segment id of the target phantom
(`reversed_target ? reverse_segment_id.id : forward_segment_id.id`). -/
def applyManeuverOverrides (fac : Facade) (geom : LegGeometry) (targetId : Nat)
    (steps : List RouteStep) : List RouteStep :=
  resolveOuter fac geom targetId steps steps.length 0

/-- The resolver viewed as a pipeline stage on the (steps, geometry) pair of a
leg: it computes new steps and passes the geometry through untouched, exactly
as the source block only reads `leg_geometry.locations`. -/
def maneuverOverrideStage (fac : Facade) (targetId : Nat)
    (p : List RouteStep × LegGeometry) : List RouteStep × LegGeometry :=
  (applyManeuverOverrides fac p.2 targetId p.1, p.2)

/-- Embeds `PhantomNode`: only the forward/reverse segment ids this core consults. -/
structure PhantomNode where
  forward_segment_id : Nat
  reverse_segment_id : Nat
deriving DecidableEq, Repr

/-- Embeds `PhantomNodes`: the source/target anchor pair of one leg. -/
structure PhantomNodes where
  source_phantom : PhantomNode
  target_phantom : PhantomNode
deriving DecidableEq, Repr

/-- Embeds `reversed ? phantom.reverse_segment_id.id : phantom.forward_segment_id.id`. -/
def activeSegmentId (reversed : Bool) (ph : PhantomNode) : Nat :=
  if reversed then ph.reverse_segment_id else ph.forward_segment_id

/-- The external guidance transform stages (lines 196–206 of the source call
them as opaque collaborators; only their input/output shapes are fixed). -/
structure GuidanceStages where
  trimShortSegments : List RouteStep → LegGeometry → List RouteStep × LegGeometry
  handleRoundabouts : List RouteStep → List RouteStep
  collapseTurnInstructions : List RouteStep → List RouteStep
  anticipateLaneChange : List RouteStep → List RouteStep
  buildIntersections : List RouteStep → List RouteStep
  suppressShortNameSegments : List RouteStep → List RouteStep
  assignRelativeLocations :
    List RouteStep → LegGeometry → PhantomNode → PhantomNode → List RouteStep
  resyncGeometry : LegGeometry → List RouteStep → LegGeometry

/-- The per-leg step post-processing of `RouteAPI::MakeRoute` when steps are
requested: the eight guidance transforms in source order, then the maneuver
override resolver reading the resynchronized geometry and the target anchor's
active segment id. -/
def processLegGuidance (G : GuidanceStages) (fac : Facade)
    (phantoms : PhantomNodes) (reversed_target : Bool)
    (steps : List RouteStep) (leg_geometry : LegGeometry) :
    List RouteStep × LegGeometry :=
  let p1 := G.trimShortSegments steps leg_geometry
  let s2 := G.handleRoundabouts p1.1
  let s3 := G.collapseTurnInstructions s2
  let s4 := G.anticipateLaneChange s3
  let s5 := G.buildIntersections s4
  let s6 := G.suppressShortNameSegments s5
  let s7 := G.assignRelativeLocations s6 p1.2
              phantoms.source_phantom phantoms.target_phantom
  let g8 := G.resyncGeometry p1.2 s7
  let s9 := applyManeuverOverrides fac g8
              (activeSegmentId reversed_target phantoms.target_phantom) s7
  (s9, g8)

/-- The spec-side pipeline (§4.3/§4.4 of the specification), written as the
stated stage composition: trim short segments, roundabout handling, turn
collapsing, lane anticipation, intersection construction, short-name
suppression, relative-location assignment, geometry resynchronization last,
and the maneuver override resolver only after stage 8.  Compared with
`processLegGuidance`, which is translated from the source. -/
def specOrderedGuidance (G : GuidanceStages) (fac : Facade)
    (phantoms : PhantomNodes) (reversed_target : Bool)
    (steps : List RouteStep) (leg_geometry : LegGeometry) :
    List RouteStep × LegGeometry :=
  let stage1 := G.trimShortSegments steps leg_geometry
  let stage7 :=
    (G.assignRelativeLocations
      (G.suppressShortNameSegments
        (G.buildIntersections
          (G.anticipateLaneChange
            (G.collapseTurnInstructions
              (G.handleRoundabouts stage1.1)))))
      stage1.2 phantoms.source_phantom phantoms.target_phantom)
  let stage8 := G.resyncGeometry stage1.2 stage7
  maneuverOverrideStage fac
    (activeSegmentId reversed_target phantoms.target_phantom) (stage7, stage8)

/-- Embeds `RouteParameters::AnnotationsType`, a bit-flag set over the six
annotation kinds; embedded as one boolean per flag.  `&` on the source enum is
reading a single flag, `== None` is all flags clear, `All` is all set. -/
structure AnnotationsType where
  speed : Bool
  duration : Bool
  distance : Bool
  weight : Bool
  datasources : Bool
  nodes : Bool
deriving DecidableEq, Repr

/-- Embeds `AnnotationsType::None`: the neutral value, no flag set. -/
def AnnotationsType.noFlags : AnnotationsType :=
  ⟨false, false, false, false, false, false⟩

/-- Embeds `AnnotationsType::All`: every flag set. -/
def AnnotationsType.allFlags : AnnotationsType :=
  ⟨true, true, true, true, true, true⟩

/-- The slice of `RouteParameters` the annotation extractor reads: the legacy
boolean `annotations` and the explicit bit-flag set `annotations_type`. -/
structure AnnParams where
  annotations : Bool
  annotations_type : AnnotationsType
deriving DecidableEq, Repr

/-- The legacy-compatibility resolution of `RouteAPI::MakeRoute`
(lines 351–356): `requested_annotations` starts as `parameters.annotations_type`
and is promoted to `All` when the legacy boolean is set and the explicit set is
`None`. -/
def requestedAnnotationsType (params : AnnParams) : AnnotationsType :=
  if params.annotations = true ∧ params.annotations_type = AnnotationsType.noFlags
  then AnnotationsType.allFlags
  else params.annotations_type

/-- The per-leg annotation object built by `RouteAPI::MakeRoute`
(lines 360–415), as an ordered key/array association list.  Each branch
mirrors one `if` of the source: note that the `speed` branch tests
`parameters.annotations_type` while every other branch tests
`requested_annotations`.  The floating-point speed computation is abstracted
as `speedFn`. -/
def makeLegAnnotationObj (speedFn : AnnotationEntry → Int) (params : AnnParams)
    (requested : AnnotationsType) (leg_geometry : LegGeometry) :
    List (String × List Int) :=
  (if params.annotations_type.speed then
    [("speed", leg_geometry.annotations.map speedFn)] else [])
  ++ (if requested.duration then
    [("duration", leg_geometry.annotations.map (·.duration))] else [])
  ++ (if requested.distance then
    [("distance", leg_geometry.annotations.map (·.distance))] else [])
  ++ (if requested.weight then
    [("weight", leg_geometry.annotations.map (·.weight))] else [])
  ++ (if requested.datasources then
    [("datasources", leg_geometry.annotations.map (fun a => Int.ofNat a.datasource))] else [])
  ++ (if requested.nodes then
    [("nodes", leg_geometry.osm_node_ids.map Int.ofNat)] else [])

/-- The whole annotation section of `RouteAPI::MakeRoute`: resolve the
effective request, and if it is non-empty build one annotation object per leg
geometry, in leg order. -/
def makeRouteAnnotationObjs (speedFn : AnnotationEntry → Int) (params : AnnParams)
    (leg_geometries : List LegGeometry) : List (List (String × List Int)) :=
  let requested := requestedAnnotationsType params
  if requested ≠ AnnotationsType.noFlags then
    leg_geometries.map (makeLegAnnotationObj speedFn params requested)
  else
    []

/-- One candidate route of `InternalManyRoutesResult`: the validity flag and
the four components `MakeResponse` forwards to `MakeRoute`.  Path data is
reduced to the edge-based node ids; its content is opaque to `MakeResponse`. -/
structure RawRoute where
  is_valid : Bool
  segment_end_coordinates : List PhantomNodes
  unpacked_path_segments : List (List Nat)
  source_traversed_in_reverse : List Bool
  target_traversed_in_reverse : List Bool
deriving DecidableEq, Repr

/-- The response document produced by `RouteAPI::MakeResponse`: the
`waypoints`, `routes` and `code` members, with the route and waypoint payloads
kept polymorphic (their construction is `MakeRoute` / `BaseAPI::MakeWaypoints`,
passed in as functions). -/
structure Response (ρ ω : Type) where
  waypoints : ω
  routes : List ρ
  code : String
deriving DecidableEq, Repr

/-- The `jsRoutes` accumulation loop of `MakeResponse` (lines 52–61): iterate
the candidates in order, skip those whose validity flag is clear, and append
one built route per valid candidate. -/
def buildRoutes {ρ : Type}
    (mkRoute : List PhantomNodes → List (List Nat) → List Bool → List Bool → ρ)
    (raw_routes : List RawRoute) : List ρ :=
  raw_routes.foldl
    (fun acc route =>
      if route.is_valid then
        acc ++ [mkRoute route.segment_end_coordinates route.unpacked_path_segments
                  route.source_traversed_in_reverse route.target_traversed_in_reverse]
      else acc)
    []

/-- Embeds `RouteAPI::MakeResponse`: requires a non-empty candidate collection
(`BOOST_ASSERT(!raw_routes.routes.empty())`, modelled as `none` on the empty
list), builds `routes` from the valid candidates, derives `waypoints` from
candidate 0's leg anchors, and sets `code` to "Ok". -/
def makeResponse {ρ ω : Type} (mkWaypoints : List PhantomNodes → ω)
    (mkRoute : List PhantomNodes → List (List Nat) → List Bool → List Bool → ρ)
    (raw_routes : List RawRoute) : Option (Response ρ ω) :=
  match raw_routes with
  | [] => none
  | r0 :: _ =>
    some
      { waypoints := mkWaypoints r0.segment_end_coordinates
        routes := buildRoutes mkRoute raw_routes
        code := "Ok" }

/-! ### Concrete inputs used by counterexamples and witnesses -/

/-- A route step with the given from-id and geometry range and fixed payload. -/
def mkTestStep (fid gb ge : Nat) : RouteStep :=
  { from_id := fid
    geometry_begin := gb
    geometry_end := ge
    maneuver :=
      { instruction := ⟨1, 1⟩
        bearing_before := 0
        bearing_after := 0
        location := ⟨0, 0⟩ }
    distance := 0
    duration := 0
    name := "s" }

/-- A per-segment metric record with the given distance. -/
def mkTestAnn (d : Int) : AnnotationEntry :=
  { distance := d, duration := 2, weight := 3, datasource := 4 }

/-- A one-segment leg geometry used by the annotation claims. -/
def annLeg : LegGeometry :=
  { locations := [⟨0, 0⟩, ⟨1, 0⟩]
    annotations := [mkTestAnn 1]
    osm_node_ids := [7, 8] }

/-- The abstracted speed computation instantiated for concrete evaluation. -/
def annSpeedFn (a : AnnotationEntry) : Int := a.distance

/-- The legacy request: `annotations=true, annotations_type=None`. -/
def legacyAnnParams : AnnParams :=
  { annotations := true, annotations_type := AnnotationsType.noFlags }

/-- The explicit request: `annotations_type=All`. -/
def allAnnParams : AnnParams :=
  { annotations := false, annotations_type := AnnotationsType.allFlags }

/-- A concrete candidate with the validity flag clear. -/
def waypointsWitnessRaw0 : RawRoute :=
  { is_valid := false
    segment_end_coordinates := [⟨⟨1, 2⟩, ⟨3, 4⟩⟩]
    unpacked_path_segments := [[10]]
    source_traversed_in_reverse := [false]
    target_traversed_in_reverse := [true] }

/-- A concrete candidate with the validity flag set. -/
def waypointsWitnessRaw1 : RawRoute :=
  { is_valid := true
    segment_end_coordinates := [⟨⟨5, 6⟩, ⟨7, 8⟩⟩]
    unpacked_path_segments := [[11]]
    source_traversed_in_reverse := [true]
    target_traversed_in_reverse := [false] }

/-- The response produced on `[waypointsWitnessRaw0, waypointsWitnessRaw1]`:
the waypoints come from the invalid first candidate. -/
def waypointsWitnessResp : Response Nat (List PhantomNodes) :=
  { waypoints := [⟨⟨1, 2⟩, ⟨3, 4⟩⟩]
    routes := [0]
    code := "Ok" }

/-- A mixed-validity candidate collection: valid entries at positions 1, 3. -/
def routesWitnessRaw : List RawRoute :=
  [waypointsWitnessRaw0, waypointsWitnessRaw1, waypointsWitnessRaw0,
   waypointsWitnessRaw1]

/-- The response produced on `routesWitnessRaw`. -/
def routesWitnessResp : Response Nat (List PhantomNodes) :=
  { waypoints := [⟨⟨1, 2⟩, ⟨3, 4⟩⟩]
    routes := [0, 0]
    code := "Ok" }

/-- The response produced when every candidate is invalid: `routes` is empty
yet `code` is still "Ok". -/
def codeWitnessResp : Response Nat (List PhantomNodes) :=
  { waypoints := [⟨⟨1, 2⟩, ⟨3, 4⟩⟩]
    routes := []
    code := "Ok" }

/-- Erasing the one field the resolver may write: each step's maneuver
instruction.  Two step lists with equal `clearInstruction` images agree on
every other field of every step. -/
def clearInstruction (s : RouteStep) : RouteStep :=
  { s with maneuver := { s.maneuver with instruction := ⟨0, 0⟩ } }

/-- Scenario A: a three-step leg.  Step geometries are `[0,2)`, `[2,4)`,
`[4,6)` into a six-coordinate geometry. -/
def scenarioASteps : List RouteStep :=
  [mkTestStep 10 0 2, mkTestStep 11 2 4, mkTestStep 12 4 6]

def scenarioAGeom : LegGeometry :=
  { locations := [⟨0, 0⟩, ⟨1, 0⟩, ⟨2, 0⟩, ⟨3, 0⟩, ⟨4, 0⟩, ⟨5, 0⟩]
    annotations := []
    osm_node_ids := [] }

/-- Scenario A override: starts at step 0's from-id, targets step 2's
from-id, via node 100 whose coordinate lies in step 1's geometry slice. -/
def scenarioAOverride : ManeuverOverride :=
  { from_node := 10, via_node_id := 100, to_node := 12
    override_type := 5, direction := 3 }

/-- A second scenario-A override keyed at step 2, which the first-match stop
must prevent from ever being evaluated. -/
def scenarioAOverride2 : ManeuverOverride :=
  { from_node := 12, via_node_id := 100, to_node := 12
    override_type := 6, direction := 2 }

def scenarioAFacade : Facade :=
  { GetOverridesThatStartAt := fun n =>
      if n = 10 then [scenarioAOverride]
      else if n = 12 then [scenarioAOverride2]
      else []
    GetCoordinateOfNode := fun n => if n = 100 then ⟨2, 0⟩ else ⟨50, 50⟩ }

/-- The scenario A outcome: only step 2's instruction is overwritten. -/
def scenarioAResult : List RouteStep :=
  [mkTestStep 10 0 2, mkTestStep 11 2 4,
   { mkTestStep 12 4 6 with
      maneuver := { (mkTestStep 12 4 6).maneuver with instruction := ⟨5, 3⟩ } }]

/-- Scenario B: a seven-step leg with from-ids 20..26 and one-coordinate
step slices; used to probe the lookahead bound. -/
def scenarioBSteps : List RouteStep :=
  [mkTestStep 20 0 1, mkTestStep 21 1 2, mkTestStep 22 2 3, mkTestStep 23 3 4,
   mkTestStep 24 4 5, mkTestStep 25 5 6, mkTestStep 26 6 7]

def scenarioBGeom : LegGeometry :=
  { locations := [⟨0, 0⟩, ⟨1, 0⟩, ⟨2, 0⟩, ⟨3, 0⟩, ⟨4, 0⟩, ⟨5, 0⟩, ⟨6, 0⟩, ⟨7, 0⟩]
    annotations := []
    osm_node_ids := [] }

/-- Scenario B override: `to_node` matches only the step 5 positions ahead of
step 0 (from-id 25). -/
def scenarioBOverride : ManeuverOverride :=
  { from_node := 20, via_node_id := 200, to_node := 25
    override_type := 4, direction := 8 }

def scenarioBFacade : Facade :=
  { GetOverridesThatStartAt := fun n => if n = 20 then [scenarioBOverride] else []
    GetCoordinateOfNode := fun _ => ⟨50, 50⟩ }

/-- Scenario C: a two-step leg (window clipped to 2), no window match; the
override's `to_node` is 77. -/
def scenarioCSteps : List RouteStep :=
  [mkTestStep 30 0 1, mkTestStep 31 1 2]

def scenarioCGeom : LegGeometry :=
  { locations := [⟨0, 0⟩, ⟨1, 0⟩, ⟨2, 0⟩]
    annotations := []
    osm_node_ids := [] }

def scenarioCOverride : ManeuverOverride :=
  { from_node := 30, via_node_id := 300, to_node := 77
    override_type := 4, direction := 8 }

def scenarioCFacade : Facade :=
  { GetOverridesThatStartAt := fun _ => []
    GetCoordinateOfNode := fun _ => ⟨50, 50⟩ }

/-! ### Helper lemmas -/

theorem buildRoutes_foldl_eq {ρ : Type}
    (mk : List PhantomNodes → List (List Nat) → List Bool → List Bool → ρ) :
    ∀ (raw : List RawRoute) (acc : List ρ),
      raw.foldl
        (fun acc route =>
          if route.is_valid then
            acc ++ [mk route.segment_end_coordinates route.unpacked_path_segments
                      route.source_traversed_in_reverse route.target_traversed_in_reverse]
          else acc)
        acc
      = acc ++ (raw.filter (·.is_valid)).map
          (fun route => mk route.segment_end_coordinates route.unpacked_path_segments
            route.source_traversed_in_reverse route.target_traversed_in_reverse)
  | [], acc => by simp
  | r :: raw, acc => by
    by_cases h : r.is_valid <;>
      simp [List.foldl_cons, h, buildRoutes_foldl_eq mk raw, List.filter_cons]

theorem buildRoutes_eq_filter_map {ρ : Type}
    (mk : List PhantomNodes → List (List Nat) → List Bool → List Bool → ρ)
    (raw : List RawRoute) :
    buildRoutes mk raw
      = (raw.filter (·.is_valid)).map
          (fun route => mk route.segment_end_coordinates route.unpacked_path_segments
            route.source_traversed_in_reverse route.target_traversed_in_reverse) := by
  simpa using buildRoutes_foldl_eq mk raw []

/-! ### Claims about `MakeResponse` -/

/-- Claim C6: for every non-empty candidate collection, the `waypoints` member of
the response is the waypoint builder applied to the FIRST candidate's leg
anchors — whatever the validity flags of any candidate are, including the
first one's. -/
theorem waypoints_from_first_route {ρ ω : Type}
    (mkWaypoints : List PhantomNodes → ω)
    (mkRoute : List PhantomNodes → List (List Nat) → List Bool → List Bool → ρ)
    (r0 : RawRoute) (rest : List RawRoute) (resp : Response ρ ω)
    (h : makeResponse mkWaypoints mkRoute (r0 :: rest) = some resp) :
    resp.waypoints = mkWaypoints r0.segment_end_coordinates := by
  simp only [makeResponse, Option.some.injEq] at h
  subst h
  rfl

theorem waypoints_from_first_route_witness :
    waypointsWitnessResp.waypoints = waypointsWitnessRaw0.segment_end_coordinates :=
  waypoints_from_first_route (fun l => l) (fun _ _ _ _ => 0)
    waypointsWitnessRaw0 [waypointsWitnessRaw1] waypointsWitnessResp rfl

/-- Claim C7: for every non-empty candidate collection the `routes` member holds
exactly one entry per valid candidate, built from that candidate's four
components, in the original relative order; its length is the number of valid
candidates.  Invalid candidates are skipped without error. -/
theorem routes_are_valid_candidates_in_order {ρ ω : Type}
    (mkWaypoints : List PhantomNodes → ω)
    (mkRoute : List PhantomNodes → List (List Nat) → List Bool → List Bool → ρ)
    (raw : List RawRoute) (resp : Response ρ ω)
    (h : makeResponse mkWaypoints mkRoute raw = some resp) :
    resp.routes
      = (raw.filter (·.is_valid)).map
          (fun route => mkRoute route.segment_end_coordinates
            route.unpacked_path_segments
            route.source_traversed_in_reverse route.target_traversed_in_reverse)
    ∧ resp.routes.length = raw.countP (·.is_valid) := by
  match raw with
  | [] => exact absurd h (by simp [makeResponse])
  | r0 :: rest =>
    simp only [makeResponse, Option.some.injEq] at h
    subst h
    refine ⟨buildRoutes_eq_filter_map mkRoute (r0 :: rest), ?_⟩
    simp [buildRoutes_eq_filter_map mkRoute (r0 :: rest),
      List.countP_eq_length_filter]

theorem routes_are_valid_candidates_in_order_witness :
    routesWitnessResp.routes
      = (routesWitnessRaw.filter (·.is_valid)).map (fun _ => (0 : Nat))
    ∧ routesWitnessResp.routes.length = routesWitnessRaw.countP (·.is_valid) :=
  routes_are_valid_candidates_in_order (fun l => l) (fun _ _ _ _ => 0)
    routesWitnessRaw routesWitnessResp rfl

/-- Claim C10: for every non-empty candidate collection the response's `code`
member is the string "Ok", unconditionally — also when every candidate is
invalid and `routes` is empty. -/
theorem response_code_always_ok {ρ ω : Type}
    (mkWaypoints : List PhantomNodes → ω)
    (mkRoute : List PhantomNodes → List (List Nat) → List Bool → List Bool → ρ)
    (raw : List RawRoute) (resp : Response ρ ω)
    (h : makeResponse mkWaypoints mkRoute raw = some resp) :
    resp.code = "Ok" := by
  match raw with
  | [] => exact absurd h (by simp [makeResponse])
  | r0 :: rest =>
    simp only [makeResponse, Option.some.injEq] at h
    subst h
    rfl

theorem response_code_always_ok_witness : codeWitnessResp.code = "Ok" :=
  response_code_always_ok (fun l => l) (fun _ _ _ _ => (0 : Nat))
    [waypointsWitnessRaw0, waypointsWitnessRaw0] codeWitnessResp rfl

/-! ### Claim about the guidance pipeline ordering -/

/-- Claim C8: for every choice of the external stage functions, the per-leg step
processing translated from the source coincides with the spec-side pipeline:
trim, roundabouts, collapse, lane anticipation, intersections, short-name
suppression, relative locations, geometry resynchronization last, and the
maneuver override resolver running only after the resynchronization, on the
resynchronized geometry. -/
theorem guidance_pipeline_order (G : GuidanceStages) (fac : Facade)
    (phantoms : PhantomNodes) (reversed_target : Bool)
    (steps : List RouteStep) (leg_geometry : LegGeometry) :
    processLegGuidance G fac phantoms reversed_target steps leg_geometry
      = specOrderedGuidance G fac phantoms reversed_target steps leg_geometry :=
  rfl

/-! ### Claim about the legacy annotation configuration -/

/-- Claim C1 fails on the code: with `{annotations=true, annotations_type=None}`
the compatibility rule does promote the effective request to `All`, but the
`speed` branch of the source tests the raw `parameters.annotations_type`
(line 366) rather than `requested_annotations`, so the legacy request omits
the `speed` key that `{annotations_type=All}` produces; the outputs are not
identical.  All other keys agree. -/
theorem legacy_annotations_missing_speed_key :
    requestedAnnotationsType legacyAnnParams = AnnotationsType.allFlags
    ∧ (makeRouteAnnotationObjs annSpeedFn legacyAnnParams [annLeg]).map
        (fun obj => obj.lookup "speed") = [Option.none]
    ∧ (makeRouteAnnotationObjs annSpeedFn allAnnParams [annLeg]).map
        (fun obj => obj.lookup "speed") = [some [(1 : Int)]]
    ∧ makeRouteAnnotationObjs annSpeedFn legacyAnnParams [annLeg]
        ≠ makeRouteAnnotationObjs annSpeedFn allAnnParams [annLeg]
    ∧ (makeRouteAnnotationObjs annSpeedFn legacyAnnParams [annLeg]).map
        (fun obj => obj.filter (fun kv => kv.1 ≠ "speed"))
      = (makeRouteAnnotationObjs annSpeedFn allAnnParams [annLeg]).map
          (fun obj => obj.filter (fun kv => kv.1 ≠ "speed")) := by
  refine ⟨by decide, by decide, by decide, by decide, by decide⟩

/-! ### Lookahead window lemmas -/

theorem window_get? (steps : List RouteStep) (i d : Nat)
    (hd : d < maxManeuverDistance steps i) :
    ((steps.drop i).take (maxManeuverDistance steps i)).get? d = steps.get? (i + d) := by
  rw [List.get?_take hd, List.get?_drop]

theorem toMatchFound_eq_false (steps : List RouteStep) (i : Nat) (o : ManeuverOverride)
    (h : ∀ d, d < maxManeuverDistance steps i →
      ∀ s, steps.get? (i + d) = some s → s.from_id ≠ o.to_node) :
    toMatchFound steps i o = false := by
  rw [toMatchFound, List.any_eq_false]
  intro x hx
  obtain ⟨d, hd⟩ := List.mem_iff_get?.mp hx
  have hdlt : d < maxManeuverDistance steps i := by
    have hlen : d < ((steps.drop i).take (maxManeuverDistance steps i)).length := by
      by_contra hge
      rw [List.get?_eq_none.mpr (Nat.le_of_not_lt hge)] at hd
      exact Option.noConfusion hd
    calc d < ((steps.drop i).take (maxManeuverDistance steps i)).length := hlen
      _ ≤ maxManeuverDistance steps i := by
        rw [List.length_take]; exact Nat.min_le_left _ _
  rw [window_get? steps i d hdlt] at hd
  simpa using h d hdlt x hd

theorem toMatchFound_eq_true (steps : List RouteStep) (i : Nat) (o : ManeuverOverride)
    (d : Nat) (hd : d < maxManeuverDistance steps i) (s : RouteStep)
    (hs : steps.get? (i + d) = some s) (hid : s.from_id = o.to_node) :
    toMatchFound steps i o = true := by
  rw [toMatchFound, List.any_eq_true]
  refine ⟨s, ?_, by simp [hid]⟩
  exact List.get?_mem (by rw [window_get? steps i d hd]; exact hs)

theorem lt_length_of_get?_eq_some {steps : List RouteStep} {n : Nat} {s : RouteStep}
    (h : steps.get? n = some s) : n < steps.length := by
  by_contra hge
  rw [List.get?_eq_none.mpr (Nat.le_of_not_lt hge)] at h
  exact Option.noConfusion h

/-! ### Claim C2 (corrected): the reach of the lookahead window -/

/-- The half-open lookahead window covers the current step and at most the
four following ones: an override whose `to_node` matches only a step 5 (or
more) positions ahead is skipped outright (a step 5 ahead leaves at least 6
steps, so the end-of-route fallback cannot fire either); a match 4 positions
ahead is reached by the window. -/
theorem lookahead_window_bound (fac : Facade) (geom : LegGeometry) (tid : Nat)
    (steps : List RouteStep) (i : Nat) (o : ManeuverOverride) :
    ((∃ s5, steps.get? (i + 5) = some s5 ∧ s5.from_id = o.to_node) →
      (∀ d, d < 5 → ∀ s, steps.get? (i + d) = some s → s.from_id ≠ o.to_node) →
      tryOverride fac geom tid steps i o = none)
    ∧ (∀ s4, steps.get? (i + 4) = some s4 → s4.from_id = o.to_node →
        toMatchFound steps i o = true) := by
  constructor
  · rintro ⟨s5, h5, -⟩ hnone
    have hlen : i + 5 < steps.length := lt_length_of_get?_eq_some h5
    have hmax : maxManeuverDistance steps i = 5 := by
      rw [maxManeuverDistance]; omega
    have hfound : toMatchFound steps i o = false :=
      toMatchFound_eq_false steps i o (by rw [hmax]; exact hnone)
    simp [tryOverride, hfound, hmax]
  · intro s4 h4 hid
    have hlen : i + 4 < steps.length := lt_length_of_get?_eq_some h4
    have hd : 4 < maxManeuverDistance steps i := by
      rw [maxManeuverDistance]; omega
    exact toMatchFound_eq_true steps i o 4 hd s4 h4 hid

/-! ### Claim C4: the end-of-route fallback gate -/

/-- When no step of the lookahead window matches the override's `to_node`, the
override proceeds to the via-node search exactly when the window was clipped
(fewer than 5 steps remain from the current one) and the target anchor's
active segment id equals `to_node`; in every other case it is skipped
(`tryOverride` yields `none`, the next override is considered). -/
theorem end_of_route_fallback_gate (fac : Facade) (geom : LegGeometry) (tid : Nat)
    (steps : List RouteStep) (i : Nat) (o : ManeuverOverride)
    (hnone : ∀ d, d < maxManeuverDistance steps i →
      ∀ s, steps.get? (i + d) = some s → s.from_id ≠ o.to_node) :
    (maxManeuverDistance steps i < 5 ∧ tid = o.to_node →
      tryOverride fac geom tid steps i o
        = viaLoop fac geom o steps (maxManeuverDistance steps i) i)
    ∧ (¬(maxManeuverDistance steps i < 5 ∧ tid = o.to_node) →
      tryOverride fac geom tid steps i o = none) := by
  have hfound : toMatchFound steps i o = false := toMatchFound_eq_false steps i o hnone
  constructor
  · rintro ⟨hlt, heq⟩
    simp [tryOverride, hfound, hlt, heq]
  · intro hcon
    have hgate : (decide (maxManeuverDistance steps i < 5) && (tid == o.to_node)) = false := by
      by_cases hlt : maxManeuverDistance steps i < 5
      · have hne : tid ≠ o.to_node := fun he => hcon ⟨hlt, he⟩
        simp [hne]
      · simp [hlt]
    simp [tryOverride, hfound, hgate]

/-- Counterexample to C2 as stated: in scenario B the unique step whose
from-id equals the override's `to_node` sits exactly 5 positions ahead of
step 0, yet the primary window search does not reach it, the override is
skipped, and the resolver leaves the leg untouched. -/
theorem lookahead_five_ahead_skipped :
    scenarioBSteps.get? (0 + 5) = some (mkTestStep 25 5 6)
    ∧ (mkTestStep 25 5 6).from_id = scenarioBOverride.to_node
    ∧ toMatchFound scenarioBSteps 0 scenarioBOverride = false
    ∧ tryOverride scenarioBFacade scenarioBGeom 999 scenarioBSteps 0
        scenarioBOverride = none
    ∧ applyManeuverOverrides scenarioBFacade scenarioBGeom 999 scenarioBSteps
        = scenarioBSteps := by
  refine ⟨by decide, by decide, by decide, by decide, by decide⟩

theorem lookahead_window_bound_witness :
    tryOverride scenarioBFacade scenarioBGeom 999 scenarioBSteps 0
      scenarioBOverride = none
    ∧ toMatchFound scenarioBSteps 1 scenarioBOverride = true :=
  ⟨(lookahead_window_bound scenarioBFacade scenarioBGeom 999 scenarioBSteps 0
      scenarioBOverride).1
      ⟨mkTestStep 25 5 6, by decide, by decide⟩
      (fun d hd s hs => by
        interval_cases d <;> (injection hs with h; subst h; decide)),
   (lookahead_window_bound scenarioBFacade scenarioBGeom 999 scenarioBSteps 1
      scenarioBOverride).2
      (mkTestStep 25 5 6) (by decide) (by decide)⟩

theorem end_of_route_fallback_gate_witness :
    tryOverride scenarioCFacade scenarioCGeom 77 scenarioCSteps 0 scenarioCOverride
      = viaLoop scenarioCFacade scenarioCGeom scenarioCOverride scenarioCSteps
          (maxManeuverDistance scenarioCSteps 0) 0
    ∧ tryOverride scenarioCFacade scenarioCGeom 55 scenarioCSteps 0
        scenarioCOverride = none :=
  ⟨(end_of_route_fallback_gate scenarioCFacade scenarioCGeom 77 scenarioCSteps 0
      scenarioCOverride
      (fun d hd s hs => by
        have hd2 : d < 2 := by
          have hm : maxManeuverDistance scenarioCSteps 0 = 2 := by decide
          omega
        interval_cases d <;> (injection hs with h; subst h; decide))).1
      ⟨by decide, rfl⟩,
   (end_of_route_fallback_gate scenarioCFacade scenarioCGeom 55 scenarioCSteps 0
      scenarioCOverride
      (fun d hd s hs => by
        have hd2 : d < 2 := by
          have hm : maxManeuverDistance scenarioCSteps 0 = 2 := by decide
          omega
        interval_cases d <;> (injection hs with h; subst h; decide))).2
      (fun hc => absurd hc.2 (by decide))⟩

/-! ### Shape lemmas: every resolver outcome is the input leg or a
single-step mutation of it -/

theorem applyAt_cases (steps : List RouteStep) (k : Nat) (o : ManeuverOverride) :
    applyAt steps k o = steps
    ∨ ∃ s, steps.get? k = some s ∧ applyAt steps k o = steps.set k (mutateStep o s) := by
  cases h : steps.get? k with
  | none => exact Or.inl (by simp only [applyAt, h])
  | some s =>
    refine Or.inr ⟨s, rfl, ?_⟩
    simp only [applyAt, h]

theorem viaLoop_shape (fac : Facade) (geom : LegGeometry) (o : ManeuverOverride)
    (steps : List RouteStep) :
    ∀ fuel t, viaLoop fac geom o steps fuel t = none
      ∨ ∃ k, viaLoop fac geom o steps fuel t = some (applyAt steps k o)
  | 0, _ => Or.inl rfl
  | fuel + 1, t => by
    cases hg : steps.get? t with
    | none => exact Or.inl (by simp only [viaLoop, hg])
    | some st =>
      by_cases hm : fac.GetCoordinateOfNode o.via_node_id ∈ stepSlice geom st
      · exact Or.inr ⟨t + 1, by simp only [viaLoop, hg, if_pos hm]⟩
      · have hrec := viaLoop_shape fac geom o steps fuel (t + 1)
        rcases hrec with hrec | ⟨k, hrec⟩
        · exact Or.inl (by simp only [viaLoop, hg, if_neg hm]; exact hrec)
        · exact Or.inr ⟨k, by simp only [viaLoop, hg, if_neg hm]; exact hrec⟩

theorem findSome?_forall {α β : Type} (f : α → Option β) (P : β → Prop)
    (h : ∀ a b, f a = some b → P b) :
    ∀ (l : List α) (b : β), l.findSome? f = some b → P b
  | [], b, hb => by simp at hb
  | a :: l, b, hb => by
    cases ha : f a with
    | none =>
      simp only [List.findSome?_cons, ha] at hb
      exact findSome?_forall f P h l b hb
    | some b0 =>
      simp only [List.findSome?_cons, ha] at hb
      injection hb with he
      subst he
      exact h a b0 ha

theorem tryOverride_shape (fac : Facade) (geom : LegGeometry) (tid : Nat)
    (steps : List RouteStep) (i : Nat) (o : ManeuverOverride) (r : List RouteStep)
    (h : tryOverride fac geom tid steps i o = some r) :
    r = steps
    ∨ ∃ k os s, steps.get? k = some s ∧ r = steps.set k (mutateStep os s) := by
  rw [tryOverride] at h
  by_cases hc : (toMatchFound steps i o
      || (decide (maxManeuverDistance steps i < 5) && (tid == o.to_node))) = true
  · rw [if_pos hc] at h
    rcases viaLoop_shape fac geom o steps (maxManeuverDistance steps i) i with hv | ⟨k, hv⟩
    · rw [hv] at h; exact Option.noConfusion h
    · rw [hv] at h
      cases h
      rcases applyAt_cases steps k o with ha | ⟨s, hs, ha⟩
      · exact Or.inl ha
      · exact Or.inr ⟨k, o, s, hs, ha⟩
  · rw [if_neg hc] at h
    exact Option.noConfusion h

theorem tryStep_shape (fac : Facade) (geom : LegGeometry) (tid : Nat)
    (steps : List RouteStep) (i : Nat) (r : List RouteStep)
    (h : tryStep fac geom tid steps i = some r) :
    r = steps
    ∨ ∃ k os s, steps.get? k = some s ∧ r = steps.set k (mutateStep os s) :=
  findSome?_forall (tryOverride fac geom tid steps i)
    (fun r => r = steps
      ∨ ∃ k os s, steps.get? k = some s ∧ r = steps.set k (mutateStep os s))
    (fun o r ho => tryOverride_shape fac geom tid steps i o r ho)
    (stepOverrides fac steps i) r h

theorem resolveOuter_shape (fac : Facade) (geom : LegGeometry) (tid : Nat)
    (steps : List RouteStep) :
    ∀ fuel i, resolveOuter fac geom tid steps fuel i = steps
      ∨ ∃ k os s, steps.get? k = some s
          ∧ resolveOuter fac geom tid steps fuel i = steps.set k (mutateStep os s)
  | 0, _ => Or.inl rfl
  | fuel + 1, i => by
    cases ht : tryStep fac geom tid steps i with
    | none =>
      rcases resolveOuter_shape fac geom tid steps fuel (i + 1) with hr | ⟨k, os, s, hs, hr⟩
      · exact Or.inl (by simp only [resolveOuter, ht]; exact hr)
      · exact Or.inr ⟨k, os, s, hs, by simp only [resolveOuter, ht]; exact hr⟩
    | some r =>
      rcases tryStep_shape fac geom tid steps i r ht with hr | ⟨k, os, s, hs, hr⟩
      · exact Or.inl (by simp only [resolveOuter, ht]; exact hr)
      · exact Or.inr ⟨k, os, s, hs, by simp only [resolveOuter, ht]; exact hr⟩

theorem applyManeuverOverrides_shape (fac : Facade) (geom : LegGeometry)
    (tid : Nat) (steps : List RouteStep) :
    applyManeuverOverrides fac geom tid steps = steps
    ∨ ∃ k os s, steps.get? k = some s
        ∧ applyManeuverOverrides fac geom tid steps = steps.set k (mutateStep os s) :=
  resolveOuter_shape fac geom tid steps steps.length 0

/-! ### Frame lemmas -/

theorem clearInstruction_mutateStep (o : ManeuverOverride) (s : RouteStep) :
    clearInstruction (mutateStep o s) = clearInstruction s := rfl

theorem map_clearInstruction_set (o : ManeuverOverride) :
    ∀ (l : List RouteStep) (k : Nat) (s : RouteStep), l.get? k = some s →
      (l.set k (mutateStep o s)).map clearInstruction = l.map clearInstruction
  | [], k, s, h => by simp at h
  | a :: l, 0, s, h => by
    cases h
    simp [clearInstruction_mutateStep]
  | a :: l, k + 1, s, h => by
    simp only [List.get?] at h
    simp [map_clearInstruction_set o l k s h]

theorem get?_set_of_ne (x : RouteStep) :
    ∀ (l : List RouteStep) (k j : Nat), k ≠ j → (l.set k x).get? j = l.get? j
  | [], _, _, _ => by simp
  | a :: l, 0, 0, h => absurd rfl h
  | a :: l, 0, j + 1, _ => by simp [List.set]
  | a :: l, k + 1, 0, _ => by simp [List.set]
  | a :: l, k + 1, j + 1, h => by
    simp only [List.set, List.get?]
    exact get?_set_of_ne x l k j (fun he => h (by rw [he]))

/-! ### Claim C3: the first successful application ends the leg -/

/-- If the override processing succeeds for the first time at outer index `i`
(every earlier index yielded nothing), the whole resolver returns exactly that
application: no later step or override influences the outcome, and the result
mutates at most one step of the leg. -/
theorem resolver_first_application_stops (fac : Facade) (geom : LegGeometry)
    (tid : Nat) (steps : List RouteStep) (i : Nat) (r : List RouteStep)
    (hi : i < steps.length)
    (hprev : ∀ i', i' < i → tryStep fac geom tid steps i' = none)
    (hcur : tryStep fac geom tid steps i = some r) :
    applyManeuverOverrides fac geom tid steps = r
    ∧ (r = steps
        ∨ ∃ k os s, steps.get? k = some s ∧ r = steps.set k (mutateStep os s))
    ∧ ∀ j j', r.get? j ≠ steps.get? j → r.get? j' ≠ steps.get? j' → j = j' := by
  have hshape := tryStep_shape fac geom tid steps i r hcur
  have hreach : ∀ fuel i0, i0 ≤ i → i < i0 + fuel →
      resolveOuter fac geom tid steps fuel i0 = r := by
    intro fuel
    induction fuel with
    | zero => intro i0 h1 h2; omega
    | succ f ih =>
      intro i0 h1 h2
      rcases Nat.eq_or_lt_of_le h1 with heq | hlt
      · subst heq
        simp only [resolveOuter, hcur]
      · simp only [resolveOuter, hprev i0 hlt]
        exact ih (i0 + 1) hlt (by omega)
  refine ⟨hreach steps.length 0 (Nat.zero_le i) (by omega), hshape, ?_⟩
  intro j j' hj hj'
  rcases hshape with hr | ⟨k, os, s, hs, hr⟩
  · exact absurd (by rw [hr]) hj
  · have hjk : j = k := by
      by_contra hne
      exact hj (by rw [hr, get?_set_of_ne _ steps k j (fun he => hne he.symm)])
    have hjk' : j' = k := by
      by_contra hne
      exact hj' (by rw [hr, get?_set_of_ne _ steps k j' (fun he => hne he.symm)])
    rw [hjk, hjk']

theorem resolver_first_application_stops_witness :
    applyManeuverOverrides scenarioAFacade scenarioAGeom 99 scenarioASteps
      = scenarioAResult
    ∧ (scenarioAResult = scenarioASteps
        ∨ ∃ k os s, scenarioASteps.get? k = some s
            ∧ scenarioAResult = scenarioASteps.set k (mutateStep os s))
    ∧ ∀ j j', scenarioAResult.get? j ≠ scenarioASteps.get? j →
        scenarioAResult.get? j' ≠ scenarioASteps.get? j' → j = j' :=
  resolver_first_application_stops scenarioAFacade scenarioAGeom 99 scenarioASteps
    0 scenarioAResult (by decide)
    (fun i' h => absurd h (Nat.not_lt_zero i'))
    (by decide)

/-! ### Claim C5: where a via-node match lands -/

theorem viaLoop_reach (fac : Facade) (geom : LegGeometry) (o : ManeuverOverride)
    (steps : List RouteStep) (t : Nat) (st : RouteStep)
    (hst : steps.get? t = some st)
    (hin : fac.GetCoordinateOfNode o.via_node_id ∈ stepSlice geom st) :
    ∀ fuel i, i ≤ t → t < i + fuel →
      (∀ u su, i ≤ u → u < t → steps.get? u = some su →
        fac.GetCoordinateOfNode o.via_node_id ∉ stepSlice geom su) →
      viaLoop fac geom o steps fuel i = some (applyAt steps (t + 1) o) := by
  intro fuel
  induction fuel with
  | zero => intro i h1 h2 _; omega
  | succ f ih =>
    intro i h1 h2 hfirst
    rcases Nat.eq_or_lt_of_le h1 with heq | hlt
    · subst heq
      simp only [viaLoop, hst, if_pos hin]
    · obtain ⟨si, hsi⟩ : ∃ si, steps.get? i = some si := by
        cases hgi : steps.get? i with
        | none =>
          have hlen : steps.length ≤ i := List.get?_eq_none.mp hgi
          have htlen : t < steps.length := lt_length_of_get?_eq_some hst
          omega
        | some si => exact ⟨si, rfl⟩
      have hni := hfirst i si (Nat.le_refl i) hlt hsi
      simp only [viaLoop, hsi, if_neg hni]
      exact ih (i + 1) hlt (by omega)
        (fun u su hu hut hsu => hfirst u su (by omega) hut hsu)

/-- When the via-node coordinate is found in the geometry slice of step `t`
(scanning forward from the current step, `t` first such within the window),
the via search succeeds and targets step `t + 1`: if `t` is the last step of
the leg nothing is mutated (the application is still reported successful);
otherwise step `t + 1`'s instruction type becomes the override's type
unconditionally and its direction modifier becomes the override's direction
exactly when that direction is not the sentinel. -/
theorem via_application (fac : Facade) (geom : LegGeometry) (o : ManeuverOverride)
    (steps : List RouteStep) (fuel i t : Nat) (st : RouteStep)
    (hit : i ≤ t) (hwin : t < i + fuel)
    (hst : steps.get? t = some st)
    (hin : fac.GetCoordinateOfNode o.via_node_id ∈ stepSlice geom st)
    (hfirst : ∀ u su, i ≤ u → u < t → steps.get? u = some su →
      fac.GetCoordinateOfNode o.via_node_id ∉ stepSlice geom su) :
    viaLoop fac geom o steps fuel i = some (applyAt steps (t + 1) o)
    ∧ (t + 1 = steps.length → applyAt steps (t + 1) o = steps)
    ∧ ∀ snext, steps.get? (t + 1) = some snext →
        applyAt steps (t + 1) o = steps.set (t + 1) (mutateStep o snext)
        ∧ (mutateStep o snext).maneuver.instruction.type = o.override_type
        ∧ (mutateStep o snext).maneuver.instruction.direction_modifier
            = (if o.direction = MaxDirectionModifier
               then snext.maneuver.instruction.direction_modifier
               else o.direction) := by
  refine ⟨viaLoop_reach fac geom o steps t st hst hin fuel i hit hwin hfirst, ?_, ?_⟩
  · intro hlast
    have hnone : steps.get? (t + 1) = none := List.get?_eq_none.mpr (Nat.le_of_eq hlast.symm)
    simp only [applyAt, hnone]
  · intro snext hnext
    refine ⟨by simp only [applyAt, hnext], rfl, ?_⟩
    by_cases hdir : o.direction = MaxDirectionModifier
    · simp [mutateStep, hdir]
    · simp [mutateStep, hdir]

theorem via_application_witness :
    viaLoop scenarioAFacade scenarioAGeom scenarioAOverride scenarioASteps 3 0
      = some (applyAt scenarioASteps 2 scenarioAOverride)
    ∧ (2 = scenarioASteps.length → applyAt scenarioASteps 2 scenarioAOverride = scenarioASteps)
    ∧ ∀ snext, scenarioASteps.get? 2 = some snext →
        applyAt scenarioASteps 2 scenarioAOverride
          = scenarioASteps.set 2 (mutateStep scenarioAOverride snext)
        ∧ (mutateStep scenarioAOverride snext).maneuver.instruction.type
            = scenarioAOverride.override_type
        ∧ (mutateStep scenarioAOverride snext).maneuver.instruction.direction_modifier
            = (if scenarioAOverride.direction = MaxDirectionModifier
               then snext.maneuver.instruction.direction_modifier
               else scenarioAOverride.direction) :=
  via_application scenarioAFacade scenarioAGeom scenarioAOverride scenarioASteps
    3 0 1 (mkTestStep 11 2 4) (by decide) (by decide) (by decide) (by decide)
    (fun u su hu hut hsu => by
      interval_cases u <;> (injection hsu with h; subst h; decide))

/-! ### Claim C9: the resolver's frame -/

/-- The maneuver override resolver leaves the leg geometry untouched, leaves
every field of every step other than the maneuver instruction unchanged, and
changes the instruction of at most one step. -/
theorem resolver_frame (fac : Facade) (tid : Nat)
    (p : List RouteStep × LegGeometry) :
    (maneuverOverrideStage fac tid p).2 = p.2
    ∧ ((maneuverOverrideStage fac tid p).1).map clearInstruction
        = p.1.map clearInstruction
    ∧ ∀ j j', (maneuverOverrideStage fac tid p).1.get? j ≠ p.1.get? j →
        (maneuverOverrideStage fac tid p).1.get? j' ≠ p.1.get? j' → j = j' := by
  refine ⟨rfl, ?_, ?_⟩
  · rcases applyManeuverOverrides_shape fac p.2 tid p.1 with hr | ⟨k, os, s, hs, hr⟩
    · simp only [maneuverOverrideStage, hr]
    · simp only [maneuverOverrideStage, hr]
      exact map_clearInstruction_set os p.1 k s hs
  · intro j j' hj hj'
    rcases applyManeuverOverrides_shape fac p.2 tid p.1 with hr | ⟨k, os, s, hs, hr⟩
    · exact absurd (by simp only [maneuverOverrideStage, hr]) hj
    · have hjk : j = k := by
        by_contra hne
        exact hj (by
          simp only [maneuverOverrideStage, hr]
          exact get?_set_of_ne _ p.1 k j (fun he => hne he.symm))
      have hjk' : j' = k := by
        by_contra hne
        exact hj' (by
          simp only [maneuverOverrideStage, hr]
          exact get?_set_of_ne _ p.1 k j' (fun he => hne he.symm))
      rw [hjk, hjk']

theorem resolver_frame_witness :
    (maneuverOverrideStage scenarioAFacade 99 (scenarioASteps, scenarioAGeom)).2
      = (scenarioASteps, scenarioAGeom).2
    ∧ ((maneuverOverrideStage scenarioAFacade 99 (scenarioASteps, scenarioAGeom)).1).map
        clearInstruction = scenarioASteps.map clearInstruction
    ∧ ∀ j j',
        (maneuverOverrideStage scenarioAFacade 99 (scenarioASteps, scenarioAGeom)).1.get? j
          ≠ scenarioASteps.get? j →
        (maneuverOverrideStage scenarioAFacade 99 (scenarioASteps, scenarioAGeom)).1.get? j'
          ≠ scenarioASteps.get? j' → j = j' :=
  resolver_frame scenarioAFacade 99 (scenarioASteps, scenarioAGeom)

end RouteApi
